import Mathlib

/-!
Shallow embedding of the content-repurposing engine's fan-out / status-aggregation
core: the n8n result callback (status aggregation and result upsert), the
regenerate route, the output edit route, the schedule route, and the prompt
builders.  Database rows are modelled as lists of records; JavaScript / Prisma
semantics (first-occurrence `String.replace`, `||` / `??` coalescing, Prisma's
"undefined means leave unchanged" update convention) are modelled explicitly.
Timestamps are milliseconds since the epoch (`Nat`), with days of fixed length;
audit-only columns (creation timestamps, engagement metrics) are omitted.
-/

namespace CRE

/-- The six supported platforms, from `platformEnum` in the validation module. -/
inductive Platform
  | instagram
  | linkedin
  | twitter
  | facebook
  | pinterest
  | tiktok
deriving DecidableEq, Repr

/-- Content lifecycle status values of `content_queue.status`.
`partialResult` stands for the source's `partial` status value. -/
inductive Status
  | pending
  | processing
  | complete
  | partialResult
  | failed
deriving DecidableEq, Repr

/-- A row of `platform_outputs` (columns the core logic reads or writes). -/
structure PlatformOutput where
  id : Nat
  contentId : Nat
  platform : Platform
  optimizedImageUrl : Option String := none
  rewrittenCopy : Option String := none
  hashtags : List String := []
  userEdited : Bool := false
  editedCopy : Option String := none
  editedHashtags : Option (List String) := none
  scheduledFor : Option Nat := none
  tokensUsed : Option Nat := none
  processingTimeMs : Option Nat := none
  modelUsed : Option String := none
deriving DecidableEq, Repr

/-- Per-platform configuration row (`platform_configs`), the fields the
embedded routes consult. -/
structure PlatformConfig where
  platform : Platform
  charLimit : Nat
  bestPostingTime : Option String := none
deriving DecidableEq, Repr

/-- A row of `content_queue`.  `platformConfigs` models
`content.brandVoiceProfile?.platformConfigs` (the profile is nullable, hence
the `Option`). -/
structure ContentUnit where
  id : Nat
  title : String
  body : String
  targetPlatforms : List Platform
  status : Status := .pending
  errorMessage : Option String := none
  platformConfigs : Option (List PlatformConfig) := none
deriving DecidableEq, Repr

/-- The durable store: the two tables the core mutates, plus a fresh-id
counter standing for primary-key generation. -/
structure DB where
  contents : List ContentUnit
  outputs : List PlatformOutput
  nextId : Nat := 0
deriving DecidableEq, Repr

/-- JavaScript `a || d` for a nullable string: `null`/`undefined` and the
empty string are falsy. -/
def jsStringOr (a : Option String) (d : String) : String :=
  match a with
  | some s => if s = "" then d else s
  | none => d

/-- JavaScript truthiness of a nullable string. -/
def jsTruthy (a : Option String) : Bool :=
  match a with
  | some s => !(s == "")
  | none => false

/-- JavaScript `a ?? b` (also Prisma's "undefined field is left unchanged"
update convention): keep `a` when present, else `b`. -/
def jsCoalesce {α : Type} (a : Option α) (b : Option α) : Option α :=
  match a with
  | some v => some v
  | none => b

/-! ### The n8n result callback (`POST /api/n8n/callback`) -/

/-- The validated `output` object of a callback body (`callbackSchema`). -/
structure CallbackOutput where
  optimized_image_url : Option String := none
  rewritten_copy : Option String := none
  hashtags : Option (List String) := none
  tokens_used : Option Nat := none
  processing_time_ms : Option Nat := none
  model_used : Option String := none
deriving DecidableEq, Repr

/-- `status` field of a callback body. -/
inductive CallbackStatus
  | success
  | failed
deriving DecidableEq, Repr

/-- A validated callback request body. -/
structure CallbackReq where
  content_id : Nat
  platform : Platform
  status : CallbackStatus
  output : Option CallbackOutput := none
  error_message : Option String := none
deriving DecidableEq, Repr

/-- Row matching the `contentId_platform` unique key. -/
def matchesPair (cid : Nat) (p : Platform) (o : PlatformOutput) : Bool :=
  o.contentId == cid && o.platform == p

/-- The upsert section of the callback route: update the existing row for the
(content, platform) pair or create one.  A `success` callback without an
`output` object records nothing (neither branch of the route fires). -/
def recordOutcome (db : DB) (r : CallbackReq) : DB :=
  let existing := db.outputs.find? (matchesPair r.content_id r.platform)
  match r.status with
  | .success =>
    match r.output with
    | some out =>
      match existing with
      | some ex =>
        { db with outputs := db.outputs.map fun o =>
            if o.id == ex.id then
              { o with
                optimizedImageUrl := jsCoalesce out.optimized_image_url o.optimizedImageUrl
                rewrittenCopy := jsCoalesce out.rewritten_copy o.rewrittenCopy
                hashtags := out.hashtags.getD []
                tokensUsed := jsCoalesce out.tokens_used o.tokensUsed
                processingTimeMs := jsCoalesce out.processing_time_ms o.processingTimeMs
                modelUsed := jsCoalesce out.model_used o.modelUsed }
            else o }
      | none =>
        { db with
          outputs := db.outputs ++
            [{ id := db.nextId
               contentId := r.content_id
               platform := r.platform
               optimizedImageUrl := out.optimized_image_url
               rewrittenCopy := out.rewritten_copy
               hashtags := out.hashtags.getD []
               tokensUsed := out.tokens_used
               processingTimeMs := out.processing_time_ms
               modelUsed := out.model_used }]
          nextId := db.nextId + 1 }
    | none => db
  | .failed =>
    match existing with
    | some ex =>
      { db with outputs := db.outputs.map fun o =>
          if o.id == ex.id then { o with rewrittenCopy := none } else o }
    | none =>
      { db with
        outputs := db.outputs ++
          [{ id := db.nextId
             contentId := r.content_id
             platform := r.platform
             rewrittenCopy := none
             hashtags := [] }]
        nextId := db.nextId + 1 }

/-- The recorded outputs of one content unit (`content.platformOutputs`). -/
def outputsFor (db : DB) (cid : Nat) : List PlatformOutput :=
  db.outputs.filter (fun o => o.contentId == cid)

/-- The recorded outputs with non-null copy
(`platformOutputs.filter(o => o.rewrittenCopy !== null)`). -/
def successesFor (db : DB) (cid : Nat) : List PlatformOutput :=
  (outputsFor db cid).filter (fun o => !(o.rewrittenCopy == none))

/-- The derivation of the aggregate status once `outputCount >= targetCount`
holds: all succeeded → `complete`, none succeeded → `failed`, else `partial`. -/
def deriveStatus (successCount targetCount : Nat) : Status :=
  if successCount == targetCount then .complete
  else if successCount == 0 then .failed
  else .partialResult

/-- The aggregation section of the callback route: re-read the unit and its
outputs; only when `outputCount >= targetCount` derive and write the new
status (and the error message, populated exactly on `failed`). -/
def aggregateUpdate (db : DB) (cid : Nat) (error_message : Option String) : DB :=
  match db.contents.find? (fun c => c.id == cid) with
  | none => db
  | some content =>
    let targetCount := content.targetPlatforms.length
    let outputCount := (outputsFor db cid).length
    let successCount := (successesFor db cid).length
    if targetCount ≤ outputCount then
      let newStatus := deriveStatus successCount targetCount
      { db with contents := db.contents.map fun u =>
          if u.id == cid then
            { u with
              status := newStatus
              errorMessage :=
                if newStatus == .failed then
                  some (jsStringOr error_message "All platforms failed")
                else none }
          else u }
    else db

/-- Full state transition of the callback route (post-validation). -/
def n8nCallback (db : DB) (r : CallbackReq) : DB :=
  aggregateUpdate (recordOutcome db r) r.content_id r.error_message

/-- Response of the callback route: after validation it unconditionally
acknowledges (`success: true, acknowledged: true`), with no error path. -/
inductive CallbackResp
  | acknowledged
deriving DecidableEq, Repr

/-- The callback route as state transition plus response. -/
def n8nCallbackRoute (db : DB) (r : CallbackReq) : DB × CallbackResp :=
  (n8nCallback db r, .acknowledged)

/-- Status of the unit with the given id, as the aggregator's reader sees it. -/
def statusOf (db : DB) (cid : Nat) : Option Status :=
  (db.contents.find? (fun c => c.id == cid)).map (·.status)

/-- Error message of the unit with the given id. -/
def errorMessageOf (db : DB) (cid : Nat) : Option (Option String) :=
  (db.contents.find? (fun c => c.id == cid)).map (·.errorMessage)

/-! ### Regenerate (`POST /api/content/:id/regenerate`) -/

/-- Outcome of the regenerate route. -/
inductive RegenResult
  | accepted
  | contentNotFound
  | invalidPlatforms (offenders : List Platform)
deriving DecidableEq, Repr

/-- The regenerate route: validate the named platforms against
`target_platforms`, delete exactly those platforms' outputs, set the unit's
status to `processing`.  (The subsequent fire-and-forget n8n triggers are
external.) -/
def regeneratePOST (db : DB) (contentId : Nat) (platforms : List Platform) :
    DB × RegenResult :=
  match db.contents.find? (fun c => c.id == contentId) with
  | none => (db, .contentNotFound)
  | some content =>
    let invalidPlatforms := platforms.filter (fun p => !content.targetPlatforms.contains p)
    if invalidPlatforms.length > 0 then
      (db, .invalidPlatforms invalidPlatforms)
    else
      let db1 := { db with
        outputs := db.outputs.filter fun o =>
          !(o.contentId == contentId && platforms.contains o.platform) }
      let db2 := { db1 with
        contents := db1.contents.map fun c =>
          if c.id == contentId then { c with status := .processing } else c }
      (db2, .accepted)

/-! ### Edit (`PATCH /api/content/:id/outputs/:outputId`) -/

/-- Outcome of the output edit route. -/
inductive EditResult
  | updated (output : PlatformOutput)
  | outputNotFound
  | charLimitExceeded (limit : Nat)
deriving DecidableEq, Repr

/-- JavaScript `x || d` over an optional number (`0` is falsy). -/
def jsNatOr (a : Option Nat) (d : Nat) : Nat :=
  match a with
  | some n => if n = 0 then d else n
  | none => d

/-- The edit route: find the output row scoped to the content, check the
edited copy (when supplied and truthy) against the platform char limit, then
set the override flag and the edited fields only.  `editedCopy ?? old`
models the route's nullish coalescing; `userEdited` is set unconditionally. -/
def outputPATCH (db : DB) (contentId outputId : Nat)
    (editedCopy : Option String) (editedHashtags : Option (List String)) :
    DB × EditResult :=
  match db.outputs.find? (fun o => o.id == outputId && o.contentId == contentId) with
  | none => (db, .outputNotFound)
  | some output =>
    let configs := (db.contents.find? (fun c => c.id == output.contentId)).bind
      (·.platformConfigs)
    let charLimit :=
      jsNatOr ((configs.getD []).find? (fun c => c.platform == output.platform)
        |>.map (·.charLimit)) 10000
    if jsTruthy editedCopy && (editedCopy.getD "").length > charLimit then
      (db, .charLimitExceeded charLimit)
    else
      let updated := { output with
        userEdited := true
        editedCopy := jsCoalesce editedCopy output.editedCopy
        editedHashtags := jsCoalesce editedHashtags output.editedHashtags }
      ({ db with outputs := db.outputs.map fun o =>
          if o.id == outputId then
            { o with
              userEdited := true
              editedCopy := jsCoalesce editedCopy o.editedCopy
              editedHashtags := jsCoalesce editedHashtags o.editedHashtags }
          else o },
       .updated updated)

/-! ### Schedule (`POST /api/content/:id/schedule`) -/

/-- Scheduling mode (`scheduleSchema.schedulingMode`). -/
inductive SchedulingMode
  | best_times
  | custom
deriving DecidableEq, Repr

/-- A validated schedule request; `customSchedules` models the optional
platform-to-timestamp record, timestamps in ms. -/
structure ScheduleReq where
  schedulingMode : SchedulingMode
  customSchedules : Option (List (Platform × Nat)) := none
deriving DecidableEq, Repr

/-- `customSchedules?.[platform]` lookup. -/
def customLookup (req : ScheduleReq) (p : Platform) : Option Nat :=
  (req.customSchedules.getD []).find? (fun e => e.1 == p) |>.map (·.2)

/-- Outcome of the schedule route. -/
inductive ScheduleResult
  | ok (scheduled : List (Platform × Nat))
  | contentNotFound
  | contentNotReady
  | missingSchedule (platform : Platform)
  | invalidSchedule (platform : Platform)
deriving DecidableEq, Repr

/-- Milliseconds per (fixed-length) day. -/
def msPerDay : Nat := 86400000

/-- Decimal digit value of a character. -/
def digitVal (c : Char) : Option Nat :=
  if c = '0' then some 0 else if c = '1' then some 1 else if c = '2' then some 2
  else if c = '3' then some 3 else if c = '4' then some 4 else if c = '5' then some 5
  else if c = '6' then some 6 else if c = '7' then some 7 else if c = '8' then some 8
  else if c = '9' then some 9 else none

/-- `Number(t)` for a plain decimal component: `none` stands for `NaN`
(the config regex keeps non-numeric components out of stored times). -/
def parseNatChars (l : List Char) : Option Nat :=
  match l with
  | [] => none
  | _ =>
    l.foldl (fun acc c =>
      match acc, digitVal c with
      | some n, some d => some (n * 10 + d)
      | _, _ => none) (some 0)

/-- JS `split(sep)` on character lists. -/
def splitOnCharAux (sep : Char) : List Char → List Char → List (List Char)
  | [], acc => [acc.reverse]
  | c :: rest, acc =>
    if c = sep then acc.reverse :: splitOnCharAux sep rest []
    else splitOnCharAux sep rest (c :: acc)

/-- Parse `"HH:MM:SS"` to milliseconds into the day
(`bestTime.split(":").map(Number)` and `setHours(h, m, s, 0)`); a `NaN`
component is modelled as 0. -/
def bestTimeMs (bt : String) : Nat :=
  let parts := (splitOnCharAux ':' bt.data []).map (fun t => (parseNatChars t).getD 0)
  ((parts.getD 0 0) * 3600 + (parts.getD 1 0) * 60 + parts.getD 2 0) * 1000

/-- The best-times branch: today's occurrence of the configured time of day
(`setHours` on a copy of `now`, local days modelled as fixed UTC days), pushed
to tomorrow when it has already passed (`scheduledTime <= now`). -/
def heuristicTime (now : Nat) (bt : String) : Nat :=
  let scheduledTime := now - now % msPerDay + bestTimeMs bt
  if scheduledTime ≤ now then scheduledTime + msPerDay else scheduledTime

/-- The per-eligible-platform timestamp computation of the schedule route:
custom mode looks the platform up in the supplied record (absence is the
`MISSING_SCHEDULE` case); best-times mode computes the heuristic time from
the platform's config (`bestPostingTime || "14:00:00"`). -/
def computeScheduledTime (now : Nat) (configs : Option (List PlatformConfig))
    (req : ScheduleReq) (p : Platform) : Option Nat :=
  match req.schedulingMode with
  | .custom => customLookup req p
  | .best_times =>
    let config := (configs.getD []).find? (fun c => c.platform == p)
    some (heuristicTime now (jsStringOr (config.bind (·.bestPostingTime)) "14:00:00"))

/-- The per-output loop body of the schedule route, threading the store:
skip outputs with falsy copy; in custom mode a missing entry aborts with
`MISSING_SCHEDULE`; a computed time `<= now` aborts with `INVALID_SCHEDULE`;
otherwise the timestamp is persisted onto the row immediately and the loop
continues.  An abort returns the store as already updated so far. -/
def scheduleLoop (now : Nat) (configs : Option (List PlatformConfig))
    (req : ScheduleReq) :
    List PlatformOutput → DB → List (Platform × Nat) → DB × ScheduleResult
  | [], db, acc => (db, .ok acc.reverse)
  | output :: rest, db, acc =>
    if !(jsTruthy output.rewrittenCopy) then
      scheduleLoop now configs req rest db acc
    else
      match computeScheduledTime now configs req output.platform with
      | none => (db, .missingSchedule output.platform)
      | some scheduledTime =>
        if scheduledTime ≤ now then
          (db, .invalidSchedule output.platform)
        else
          let db1 := { db with outputs := db.outputs.map fun o =>
            if o.id == output.id then { o with scheduledFor := some scheduledTime } else o }
          scheduleLoop now configs req rest db1 ((output.platform, scheduledTime) :: acc)

/-- The schedule route: require a `complete` or `partial` unit, then iterate
the unit's outputs (snapshot order), computing, validating and persisting a
timestamp per eligible platform. -/
def schedulePOST (db : DB) (now : Nat) (contentId : Nat) (req : ScheduleReq) :
    DB × ScheduleResult :=
  match db.contents.find? (fun c => c.id == contentId) with
  | none => (db, .contentNotFound)
  | some content =>
    if content.status ≠ .complete ∧ content.status ≠ .partialResult then
      (db, .contentNotReady)
    else
      scheduleLoop now content.platformConfigs req
        (db.outputs.filter (fun o => o.contentId == contentId)) db []

/-! ### Prompt building

JavaScript `String.prototype.replace` with a *string* pattern replaces only
the first occurrence; a non-string replacement value is coerced with
`String(...)`, so a `null` value substitutes as the literal text `"null"`. -/

/-- First-occurrence replacement on character lists (JS `replace` with a
string pattern, ignoring `$`-substitution patterns, which no caller uses). -/
def jsReplaceFirstL : List Char → List Char → List Char → List Char
  | [], pat, rep => if pat.isPrefixOf ([] : List Char) then rep else []
  | c :: rest, pat, rep =>
    if pat.isPrefixOf (c :: rest) then rep ++ (c :: rest).drop pat.length
    else c :: jsReplaceFirstL rest pat rep

/-- First-occurrence replacement on strings. -/
def jsReplaceFirst (s pat rep : String) : String :=
  ⟨jsReplaceFirstL s.data pat.data rep.data⟩

/-- JS `String(x)` for a nullable string: `null` coerces to `"null"`. -/
def jsString (a : Option String) : String :=
  match a with
  | some s => s
  | none => "null"

/-- Does `pat` occur as a contiguous sublist of `s`? -/
def occursL (pat s : List Char) : Bool :=
  (List.range (s.length + 1)).any (fun i => pat.isPrefixOf (s.drop i))

/-- String form of `occursL`. -/
def occursStr (pat s : String) : Bool :=
  occursL pat.data s.data

/-- `buildUserPrompt` of the platform-test route: with a truthy template,
substitute the first occurrences of `{{title}}` and `{{body}}` only;
otherwise a fixed default prompt. -/
def buildUserPrompt (userPromptTemplate : Option String) (title body : String) : String :=
  if jsTruthy userPromptTemplate then
    jsReplaceFirst (jsReplaceFirst (userPromptTemplate.getD "") "{{title}}" title)
      "{{body}}" body
  else
    "Transform this content for social media:\n\nTitle: " ++ title ++
      "\n\nBody: " ++ body

/-- Brand-profile fields the n8n "Build AI Prompt" Function node reads. -/
structure BrandProfileFields where
  global_tone : Option String := none
  target_audience : Option String := none
  example_input_1 : Option String := none
  example_output_1 : Option String := none
deriving DecidableEq, Repr

/-- Platform-config fields the n8n "Build AI Prompt" Function node reads
(`user_prompt_template` must be a string for the node not to throw). -/
structure PlatformConfigFields where
  user_prompt_template : String
  tone_override : Option String := none
  custom_instructions : Option String := none
  char_limit : Nat
  example_input_1 : Option String := none
  example_output_1 : Option String := none
deriving DecidableEq, Repr

/-- The n8n "Build AI Prompt" Function node: sequential first-occurrence
substitutions (nullable values coerced by `String(...)`), then the few-shot
blocks prepended ahead of the substituted template. -/
def buildAIPrompt (content_title content_body : String)
    (brandProfile : BrandProfileFields) (platformConfig : PlatformConfigFields) :
    String :=
  let userPrompt := platformConfig.user_prompt_template
  let userPrompt := jsReplaceFirst userPrompt "{{title}}" content_title
  let userPrompt := jsReplaceFirst userPrompt "{{body}}" content_body
  let userPrompt := jsReplaceFirst userPrompt "{{global_tone}}" (jsString brandProfile.global_tone)
  let userPrompt := jsReplaceFirst userPrompt "{{platform_tone}}" (jsString platformConfig.tone_override)
  let userPrompt := jsReplaceFirst userPrompt "{{custom_instructions}}" (jsString platformConfig.custom_instructions)
  let userPrompt := jsReplaceFirst userPrompt "{{char_limit}}" (toString platformConfig.char_limit)
  let userPrompt := jsReplaceFirst userPrompt "{{target_audience}}" (jsString brandProfile.target_audience)
  let fewShot1 : String :=
    if jsTruthy brandProfile.example_input_1 && jsTruthy brandProfile.example_output_1 then
      "Example 1:\nInput: " ++ jsString brandProfile.example_input_1 ++
        "\nOutput: " ++ jsString brandProfile.example_output_1 ++ "\n\n"
    else ""
  let fewShot2 : String :=
    if jsTruthy platformConfig.example_input_1 && jsTruthy platformConfig.example_output_1 then
      "Platform Example:\nInput: " ++ jsString platformConfig.example_input_1 ++
        "\nOutput: " ++ jsString platformConfig.example_output_1 ++ "\n\n"
    else ""
  fewShot1 ++ fewShot2 ++ userPrompt

/-! ### Derived notions used by the verification -/

/-- A callback body that records a row: either a failure, or a success
carrying its `output` object (a success without `output` records nothing). -/
def recordsRow (r : CallbackReq) : Bool :=
  r.status == .failed || r.output.isSome

/-- The copy that recording this callback stores on a freshly created row:
the payload's `rewritten_copy` on success-with-output, `null` otherwise. -/
def eventCopy (r : CallbackReq) : Option String :=
  match r.status, r.output with
  | .success, some out => out.rewritten_copy
  | _, _ => none

/-- The row the callback's create branch inserts (no existing row for the
(content, platform) pair). -/
def createdRow (db : DB) (r : CallbackReq) : PlatformOutput :=
  match r.status, r.output with
  | .success, some out =>
    { id := db.nextId
      contentId := r.content_id
      platform := r.platform
      optimizedImageUrl := out.optimized_image_url
      rewrittenCopy := out.rewritten_copy
      hashtags := out.hashtags.getD []
      tokensUsed := out.tokens_used
      processingTimeMs := out.processing_time_ms
      modelUsed := out.model_used }
  | _, _ =>
    { id := db.nextId
      contentId := r.content_id
      platform := r.platform
      rewrittenCopy := none
      hashtags := [] }

/-- Recording a sequence of callback deliveries one at a time. -/
def runCallbacks (db : DB) (rs : List CallbackReq) : DB :=
  rs.foldl n8nCallback db

/-- The exclusivity invariant: at most one stored PlatformResult row per
(content, platform) pair. -/
def atMostOnePerPair (db : DB) : Prop :=
  db.outputs.Pairwise (fun a b => ¬(a.contentId = b.contentId ∧ a.platform = b.platform))

/-- Today's occurrence of a configured time of day, as the spec describes it
(the calendar day containing `now`, at that time of day). -/
def todayOccurrence (now : Nat) (bt : String) : Nat :=
  now - now % msPerDay + bestTimeMs bt

/-- Tomorrow's occurrence of a configured time of day. -/
def tomorrowOccurrence (now : Nat) (bt : String) : Nat :=
  todayOccurrence now bt + msPerDay

/-- Rows unchanged up to a strictly-future scheduling timestamp written onto
them: the only kind of write the schedule loop performs. -/
def schedOnlyWrite (now : Nat) (x x' : PlatformOutput) : Prop :=
  x' = x ∨ ∃ t, now < t ∧ x' = { x with scheduledFor := some t }

/-! ### Concrete sample states for witnesses and counterexamples -/

/-- A two-platform unit still in its initial `pending` state. -/
def samplePendingUnit : ContentUnit :=
  { id := 1
    title := "t"
    body := "b"
    targetPlatforms := [.instagram, .linkedin]
    status := .pending }

/-- Store holding only `samplePendingUnit`, with no outputs yet. -/
def samplePendingDB : DB :=
  { contents := [samplePendingUnit], outputs := [], nextId := 10 }

/-- A successful instagram completion for unit 1. -/
def sampleSuccessReq : CallbackReq :=
  { content_id := 1
    platform := .instagram
    status := .success
    output := some { rewritten_copy := some "copyA" } }

/-- A failed linkedin completion for unit 1. -/
def sampleFailedReq : CallbackReq :=
  { content_id := 1
    platform := .linkedin
    status := .failed
    error_message := some "boom" }

/-- A successful linkedin completion for unit 1. -/
def sampleSuccessReqB : CallbackReq :=
  { content_id := 1
    platform := .linkedin
    status := .success
    output := some { rewritten_copy := some "copyB" } }

/-- A `complete` two-platform unit with two successful outputs, used by the
scheduling and edit examples. -/
def sampleCompleteUnit : ContentUnit :=
  { id := 2
    title := "t"
    body := "b"
    targetPlatforms := [.instagram, .linkedin]
    status := .complete
    platformConfigs := some [{ platform := .instagram, charLimit := 2200 }] }

/-- Successful instagram output row of unit 2. -/
def sampleOutA : PlatformOutput :=
  { id := 100, contentId := 2, platform := .instagram, rewrittenCopy := some "ca" }

/-- Successful linkedin output row of unit 2. -/
def sampleOutB : PlatformOutput :=
  { id := 101, contentId := 2, platform := .linkedin, rewrittenCopy := some "cb" }

/-- Store holding the `complete` unit 2 and its two successful outputs. -/
def sampleCompleteDB : DB :=
  { contents := [sampleCompleteUnit], outputs := [sampleOutA, sampleOutB], nextId := 200 }

/-- Custom-mode schedule request supplying a future time for instagram and a
past time for linkedin (relative to `now = 1000`). -/
def sampleMixedScheduleReq : ScheduleReq :=
  { schedulingMode := .custom
    customSchedules := some [(.instagram, 5000), (.linkedin, 500)] }

/-- The (platform, copy) projection of a stored row — the data the status
aggregation reads from it. -/
def rowKey (o : PlatformOutput) : Platform × Option String :=
  (o.platform, o.rewrittenCopy)

/-- The (platform, copy) projection a recorded callback contributes. -/
def reqKey (r : CallbackReq) : Platform × Option String :=
  (r.platform, eventCopy r)

/-- Identity and (immutable) target-platform set of the unit a reader finds
under the given id. -/
def contentKey (db : DB) (cid : Nat) : Option (Nat × List Platform) :=
  (db.contents.find? (fun u => u.id == cid)).map (fun c => (c.id, c.targetPlatforms))

/-- A three-platform unit mid-dispatch, no results recorded yet. -/
def sampleTriUnit : ContentUnit :=
  { id := 3
    title := "t"
    body := "b"
    targetPlatforms := [.instagram, .linkedin, .twitter]
    status := .processing }

/-- Store holding only `sampleTriUnit`. -/
def sampleTriDB : DB :=
  { contents := [sampleTriUnit], outputs := [], nextId := 0 }

/-- Successful instagram completion for unit 3. -/
def triSuccessA : CallbackReq :=
  { content_id := 3
    platform := .instagram
    status := .success
    output := some { rewritten_copy := some "ca" } }

/-- Successful linkedin completion for unit 3. -/
def triSuccessB : CallbackReq :=
  { content_id := 3
    platform := .linkedin
    status := .success
    output := some { rewritten_copy := some "cb" } }

/-- Failed twitter completion for unit 3. -/
def triFailC : CallbackReq :=
  { content_id := 3
    platform := .twitter
    status := .failed }

/-- The store after editing the copy of output 100 (unit 2). -/
def sampleEditedDB : DB :=
  (outputPATCH sampleCompleteDB 2 100 (some "newcopy") none).1

/-- The row edit of output 100 should produce. -/
def sampleEditedRow : PlatformOutput :=
  { sampleOutA with userEdited := true, editedCopy := some "newcopy" }

/-! ## General lemmas about the callback transition -/

theorem recordOutcome_contents (db : DB) (r : CallbackReq) :
    (recordOutcome db r).contents = db.contents := by
  unfold recordOutcome
  cases r.status with
  | success =>
    cases r.output with
    | none => rfl
    | some out =>
      cases db.outputs.find? (matchesPair r.content_id r.platform) <;> rfl
  | failed =>
    cases db.outputs.find? (matchesPair r.content_id r.platform) <;> rfl

theorem aggregateUpdate_outputs (db : DB) (cid : Nat) (m : Option String) :
    (aggregateUpdate db cid m).outputs = db.outputs := by
  unfold aggregateUpdate
  cases db.contents.find? (fun c => c.id == cid) with
  | none => rfl
  | some content => dsimp only; split <;> rfl

theorem aggregateUpdate_nextId (db : DB) (cid : Nat) (m : Option String) :
    (aggregateUpdate db cid m).nextId = db.nextId := by
  unfold aggregateUpdate
  cases db.contents.find? (fun c => c.id == cid) with
  | none => rfl
  | some content => dsimp only; split <;> rfl

theorem n8nCallback_outputs (db : DB) (r : CallbackReq) :
    (n8nCallback db r).outputs = (recordOutcome db r).outputs :=
  aggregateUpdate_outputs _ _ _

theorem createdRow_contentId (db : DB) (r : CallbackReq) :
    (createdRow db r).contentId = r.content_id := by
  unfold createdRow
  cases r.status <;> cases r.output <;> rfl

theorem createdRow_platform (db : DB) (r : CallbackReq) :
    (createdRow db r).platform = r.platform := by
  unfold createdRow
  cases r.status <;> cases r.output <;> rfl

theorem createdRow_rewrittenCopy (db : DB) (r : CallbackReq) :
    (createdRow db r).rewrittenCopy = eventCopy r := by
  unfold createdRow eventCopy
  cases r.status <;> cases r.output <;> rfl

/-- The three shapes of the upsert's effect on the outputs table: a key-
preserving in-place update, a create of the fresh row (when no row for the
pair exists), or no change at all (success without payload). -/
theorem recordOutcome_outputs_cases (db : DB) (r : CallbackReq) :
    (∃ f : PlatformOutput → PlatformOutput,
        (∀ o, (f o).contentId = o.contentId ∧ (f o).platform = o.platform) ∧
        (recordOutcome db r).outputs = db.outputs.map f)
    ∨ ((recordOutcome db r).outputs = db.outputs ++ [createdRow db r] ∧
        db.outputs.find? (matchesPair r.content_id r.platform) = none)
    ∨ (recordOutcome db r).outputs = db.outputs := by
  unfold recordOutcome
  cases hs : r.status with
  | success =>
    cases hout : r.output with
    | none => exact Or.inr (Or.inr rfl)
    | some out =>
      cases hex : db.outputs.find? (matchesPair r.content_id r.platform) with
      | none =>
        refine Or.inr (Or.inl ⟨?_, rfl⟩)
        unfold createdRow
        rw [hs, hout]
      | some ex =>
        refine Or.inl ⟨_, fun o => ?_, rfl⟩
        by_cases h : (o.id == ex.id) = true <;> simp [h]
  | failed =>
    cases hex : db.outputs.find? (matchesPair r.content_id r.platform) with
    | none =>
      refine Or.inr (Or.inl ⟨?_, rfl⟩)
      unfold createdRow
      rw [hs]
    | some ex =>
      refine Or.inl ⟨_, fun o => ?_, rfl⟩
      by_cases h : (o.id == ex.id) = true <;> simp [h]

/-! ## Claim C3 — at most one PlatformResult per (content, platform) pair -/

/-- Claim C3: the result-recorder callback, on both its success and its
failure branch, preserves the invariant that at most one PlatformResult row
exists per (content, platform) pair — it updates the existing row when one
exists and creates a row only when none exists. -/
theorem callback_preserves_at_most_one_per_pair (db : DB) (r : CallbackReq)
    (h : atMostOnePerPair db) : atMostOnePerPair (n8nCallback db r) := by
  unfold atMostOnePerPair at h ⊢
  rw [n8nCallback_outputs]
  rcases recordOutcome_outputs_cases db r with ⟨f, hf, heq⟩ | ⟨heq, hnone⟩ | heq
  · rw [heq]
    refine h.map f (fun a b hab => ?_)
    rw [(hf a).1, (hf a).2, (hf b).1, (hf b).2]
    exact hab
  · rw [heq, List.pairwise_append]
    refine ⟨h, List.pairwise_singleton _ _, ?_⟩
    intro a ha b hb
    have hb' : b = createdRow db r := by simpa using hb
    subst hb'
    rintro ⟨h1, h2⟩
    have hsome := List.find?_eq_none.mp hnone a ha
    apply hsome
    rw [createdRow_contentId] at h1
    rw [createdRow_platform] at h2
    simp [matchesPair, h1, h2]
  · rw [heq]; exact h

/-- Witness for C3 at a concrete store and callback. -/
theorem callback_preserves_at_most_one_per_pair_witness :
    atMostOnePerPair (n8nCallback samplePendingDB sampleSuccessReq) :=
  callback_preserves_at_most_one_per_pair samplePendingDB sampleSuccessReq List.Pairwise.nil

/-! ## Claim C1 — status derivation on each recorded result -/

theorem find?_map_comm {α : Type} (p : α → Bool) (f : α → α)
    (hf : ∀ a, p (f a) = p a) (l : List α) :
    (l.map f).find? p = (l.find? p).map f := by
  induction l with
  | nil => rfl
  | cons a t ih =>
    cases h : p a with
    | true =>
      rw [List.map_cons, List.find?_cons_of_pos _ (by rw [hf]; exact h),
        List.find?_cons_of_pos _ h, Option.map_some']
    | false =>
      rw [List.map_cons, List.find?_cons_of_neg _ (by rw [hf, h]; exact Bool.false_ne_true),
        List.find?_cons_of_neg _ (by rw [h]; exact Bool.false_ne_true), ih]

/-- Counterexample to C1 as stated: one of two target platforms reports
success while the unit is still `pending`; the recorded-result count is below
the target count and the callback leaves the unit's status untouched — it
does not move it to `processing`. -/
theorem callback_below_target_keeps_pending_counterexample :
    (outputsFor (n8nCallback samplePendingDB sampleSuccessReq) 1).length = 1 ∧
    samplePendingUnit.targetPlatforms.length = 2 ∧
    statusOf samplePendingDB 1 = some Status.pending ∧
    statusOf (n8nCallback samplePendingDB sampleSuccessReq) 1 = some Status.pending := by
  decide

/-- Full behaviour of the callback's aggregation step: below the target
count it writes nothing; at the target count it writes the derived status and
sets the error message exactly on `failed`. -/
theorem callback_aggregation_spec (db : DB) (r : CallbackReq)
    (c : ContentUnit)
    (hc : db.contents.find? (fun u => u.id == r.content_id) = some c) :
    ((outputsFor (recordOutcome db r) r.content_id).length < c.targetPlatforms.length →
      (n8nCallback db r).contents = db.contents)
    ∧ ((outputsFor (recordOutcome db r) r.content_id).length = c.targetPlatforms.length →
      statusOf (n8nCallback db r) r.content_id =
        some (deriveStatus (successesFor (recordOutcome db r) r.content_id).length
          c.targetPlatforms.length)
      ∧ errorMessageOf (n8nCallback db r) r.content_id =
        some (if deriveStatus (successesFor (recordOutcome db r) r.content_id).length
              c.targetPlatforms.length == Status.failed then
            some (jsStringOr r.error_message "All platforms failed")
          else none)) := by
  have hc1 : (recordOutcome db r).contents.find? (fun u => u.id == r.content_id) = some c := by
    rw [recordOutcome_contents]; exact hc
  have hpc0 := List.find?_some hc1
  have hpc : (c.id == r.content_id) = true := hpc0
  constructor
  · intro hlt
    show (aggregateUpdate (recordOutcome db r) r.content_id r.error_message).contents = _
    unfold aggregateUpdate
    rw [hc1]
    dsimp only
    rw [if_neg (Nat.not_le.mpr hlt)]
    exact recordOutcome_contents db r
  · intro heq
    have hle : c.targetPlatforms.length ≤ (outputsFor (recordOutcome db r) r.content_id).length :=
      Nat.le_of_eq heq.symm
    have hagg : n8nCallback db r =
        { recordOutcome db r with contents := (recordOutcome db r).contents.map fun u =>
            if u.id == r.content_id then
              { u with
                status := deriveStatus (successesFor (recordOutcome db r) r.content_id).length
                  c.targetPlatforms.length
                errorMessage :=
                  if deriveStatus (successesFor (recordOutcome db r) r.content_id).length
                      c.targetPlatforms.length == Status.failed then
                    some (jsStringOr r.error_message "All platforms failed")
                  else none }
            else u } := by
      show aggregateUpdate (recordOutcome db r) r.content_id r.error_message = _
      unfold aggregateUpdate
      rw [hc1]
      dsimp only
      rw [if_pos hle]
    have hfind :
        ((n8nCallback db r).contents.find? (fun u => u.id == r.content_id)) =
          some (if (c.id == r.content_id) = true then
            { c with
              status := deriveStatus (successesFor (recordOutcome db r) r.content_id).length
                c.targetPlatforms.length
              errorMessage :=
                if deriveStatus (successesFor (recordOutcome db r) r.content_id).length
                    c.targetPlatforms.length == Status.failed then
                  some (jsStringOr r.error_message "All platforms failed")
                else none }
          else c) := by
      rw [hagg]
      show ((recordOutcome db r).contents.map _).find? _ = _
      rw [find?_map_comm _ _ ?hf, hc1, Option.map_some']
      case hf =>
        intro a
        by_cases h : (a.id == r.content_id) = true
        · rw [if_pos h]
        · rw [if_neg h]
    rw [if_pos hpc] at hfind
    constructor
    · unfold statusOf
      rw [hfind, Option.map_some']
    · unfold errorMessageOf
      rw [hfind, Option.map_some']

/-- Claim C1 (amended): when the recorded-result count R is below the target
count T the callback writes nothing to the unit (its status and error message
are left unchanged, rather than being set to `processing`); when R = T the
status becomes `complete` when S = T, `failed` when S = 0 and `partial`
otherwise, and the error message is populated exactly when the derived status
is `failed`. -/
theorem callback_aggregation_writes_only_at_target (db : DB) (r : CallbackReq)
    (c : ContentUnit)
    (hc : db.contents.find? (fun u => u.id == r.content_id) = some c) :
    ((outputsFor (recordOutcome db r) r.content_id).length < c.targetPlatforms.length →
      (n8nCallback db r).contents = db.contents)
    ∧ ((outputsFor (recordOutcome db r) r.content_id).length = c.targetPlatforms.length →
      statusOf (n8nCallback db r) r.content_id =
        some (deriveStatus (successesFor (recordOutcome db r) r.content_id).length
          c.targetPlatforms.length)
      ∧ errorMessageOf (n8nCallback db r) r.content_id =
        some (if deriveStatus (successesFor (recordOutcome db r) r.content_id).length
              c.targetPlatforms.length == Status.failed then
            some (jsStringOr r.error_message "All platforms failed")
          else none)) :=
  callback_aggregation_spec db r c hc

/-- Witness for the amended C1: the second of two completions (one success,
one failure) makes the recorded count reach the target count and the unit
lands in `partial`. -/
theorem callback_aggregation_writes_only_at_target_witness :
    statusOf (n8nCallback (n8nCallback samplePendingDB sampleSuccessReq) sampleFailedReq) 1 =
      some Status.partialResult := by
  have h := (callback_aggregation_writes_only_at_target
    (n8nCallback samplePendingDB sampleSuccessReq) sampleFailedReq samplePendingUnit
    (by decide)).2 (by decide)
  exact h.1.trans (by decide)

/-! ## Claim C10 — success callback without an output object is dropped -/

/-- Claim C10: a callback whose status is `success` but whose body has no
`output` object records nothing — the stored results are unchanged — and yet
the route still acknowledges success. -/
theorem success_without_output_is_dropped (db : DB) (r : CallbackReq)
    (hs : r.status = .success) (ho : r.output = none) :
    (n8nCallbackRoute db r).1.outputs = db.outputs ∧
    (n8nCallbackRoute db r).2 = .acknowledged := by
  refine ⟨?_, rfl⟩
  show (n8nCallback db r).outputs = db.outputs
  rw [n8nCallback_outputs]
  unfold recordOutcome
  rw [hs, ho]

/-- Witness for C10 at a concrete store and callback. -/
theorem success_without_output_is_dropped_witness :
    (n8nCallbackRoute samplePendingDB
        { content_id := 1, platform := .instagram, status := .success }).1.outputs =
      samplePendingDB.outputs ∧
    (n8nCallbackRoute samplePendingDB
        { content_id := 1, platform := .instagram, status := .success }).2 =
      .acknowledged :=
  success_without_output_is_dropped _ _ rfl rfl

/-! ## Claim C5 — regeneration deletes exactly the named platforms -/

/-- Claim C5: a regenerate call naming a subset of the unit's target
platforms is accepted; exactly the named platforms' rows for that unit are
deleted, every other stored row (other platforms, other units) survives
byte-identical, and the unit's status is set to `processing`. -/
theorem regenerate_deletes_exactly_named (db : DB) (cid : Nat)
    (platforms : List Platform) (c : ContentUnit)
    (hc : db.contents.find? (fun u => u.id == cid) = some c)
    (hsub : ∀ p ∈ platforms, p ∈ c.targetPlatforms) :
    (regeneratePOST db cid platforms).2 = .accepted
    ∧ (∀ o ∈ db.outputs, o.contentId = cid → o.platform ∈ platforms →
        o ∉ (regeneratePOST db cid platforms).1.outputs)
    ∧ (∀ o ∈ db.outputs, ¬(o.contentId = cid ∧ o.platform ∈ platforms) →
        o ∈ (regeneratePOST db cid platforms).1.outputs)
    ∧ (∀ o ∈ (regeneratePOST db cid platforms).1.outputs, o ∈ db.outputs)
    ∧ statusOf (regeneratePOST db cid platforms).1 cid = some .processing
    ∧ (∀ u ∈ db.contents, u.id ≠ cid →
        u ∈ (regeneratePOST db cid platforms).1.contents) := by
  have hinv : platforms.filter (fun p => !c.targetPlatforms.contains p) = [] := by
    rw [List.filter_eq_nil_iff]
    intro a ha
    simp [hsub a ha]
  have hres : regeneratePOST db cid platforms =
      ({ { db with
            outputs := db.outputs.filter fun o =>
              !(o.contentId == cid && platforms.contains o.platform) } with
          contents := db.contents.map fun u =>
            if u.id == cid then { u with status := .processing } else u },
        .accepted) := by
    unfold regeneratePOST
    rw [hc]
    dsimp only
    rw [hinv]
    rfl
  rw [hres]
  dsimp only
  refine ⟨rfl, ?_, ?_, ?_, ?_, ?_⟩
  · intro o ho h1 h2 hmem
    have := (List.mem_filter.mp hmem).2
    simp [h1, h2] at this
  · intro o ho hnot
    refine List.mem_filter.mpr ⟨ho, ?_⟩
    by_cases h1 : o.contentId = cid
    · have h2 : o.platform ∉ platforms := fun h2 => hnot ⟨h1, h2⟩
      simp [h1, h2]
    · simp [h1]
  · intro o ho
    exact (List.mem_filter.mp ho).1
  · unfold statusOf
    dsimp only
    rw [find?_map_comm _ _ ?hf, hc, Option.map_some']
    case hf =>
      intro a
      by_cases h : (a.id == cid) = true
      · rw [if_pos h]
      · rw [if_neg h]
    have hpc0 := List.find?_some hc
    have hpc : (c.id == cid) = true := hpc0
    rw [if_pos hpc, Option.map_some']
  · intro u hu hne
    have h : (u.id == cid) = false := by simpa using hne
    have : (if (u.id == cid) = true then { u with status := Status.processing } else u) = u := by
      rw [if_neg (by simp [h])]
    exact this ▸ List.mem_map_of_mem _ hu

/-- Witness for C5: regenerating linkedin on the complete two-platform unit
deletes linkedin's row, keeps instagram's row byte-identical, and moves the
unit to `processing`. -/
theorem regenerate_deletes_exactly_named_witness :
    statusOf (regeneratePOST sampleCompleteDB 2 [.linkedin]).1 2 = some .processing
    ∧ sampleOutA ∈ (regeneratePOST sampleCompleteDB 2 [.linkedin]).1.outputs
    ∧ sampleOutB ∉ (regeneratePOST sampleCompleteDB 2 [.linkedin]).1.outputs := by
  have h := regenerate_deletes_exactly_named sampleCompleteDB 2 [.linkedin]
    sampleCompleteUnit (by decide) (by decide)
  exact ⟨h.2.2.2.2.1, h.2.2.1 sampleOutA (by decide) (by decide),
    h.2.1 sampleOutB (by decide) (by decide) (by decide)⟩

/-! ## Claim C6 — regeneration rejects platforms outside the target set -/

/-- Claim C6: a regenerate call naming some platform outside the unit's
`target_platforms` is rejected with `INVALID_PLATFORMS` carrying exactly the
offending names, and the store is returned unchanged (no deletion, status
untouched). -/
theorem regenerate_rejects_invalid_platforms (db : DB) (cid : Nat)
    (platforms : List Platform) (c : ContentUnit)
    (hc : db.contents.find? (fun u => u.id == cid) = some c)
    (hbad : ∃ p ∈ platforms, p ∉ c.targetPlatforms) :
    regeneratePOST db cid platforms =
      (db, .invalidPlatforms (platforms.filter (fun p => !c.targetPlatforms.contains p)))
    ∧ ∀ q, q ∈ platforms.filter (fun p => !c.targetPlatforms.contains p) ↔
        (q ∈ platforms ∧ q ∉ c.targetPlatforms) := by
  obtain ⟨p, hp, hnp⟩ := hbad
  have hmem : p ∈ platforms.filter (fun p => !c.targetPlatforms.contains p) :=
    List.mem_filter.mpr ⟨hp, by simp [hnp]⟩
  have hpos : (platforms.filter (fun p => !c.targetPlatforms.contains p)).length > 0 :=
    List.length_pos.mpr (List.ne_nil_of_mem hmem)
  constructor
  · unfold regeneratePOST
    rw [hc]
    dsimp only
    rw [if_pos hpos]
  · intro q
    rw [List.mem_filter]
    simp

/-- Witness for C6: naming twitter (not targeted) alongside linkedin is
rejected with exactly `[twitter]` as offenders and leaves the store as it
was. -/
theorem regenerate_rejects_invalid_platforms_witness :
    regeneratePOST sampleCompleteDB 2 [.twitter, .linkedin] =
      (sampleCompleteDB, .invalidPlatforms [.twitter]) := by
  have h := regenerate_rejects_invalid_platforms sampleCompleteDB 2 [.twitter, .linkedin]
    sampleCompleteUnit (by decide) ⟨.twitter, by decide, by decide⟩
  exact h.1.trans (by decide)

/-! ## Claim C8 — user edits override without touching generated content -/

/-- Claim C8: an edit call that supplies new copy and/or new hashtags and
succeeds sets the override flag, changes only the edited-copy/edited-hashtags
fields of the target row (the generated copy and hashtags are untouched), and
changes no content unit — in particular the owning unit's aggregate status is
unchanged. -/
theorem edit_sets_override_only (db : DB) (contentId outputId : Nat)
    (editedCopy : Option String) (editedHashtags : Option (List String))
    (o : PlatformOutput)
    (ho : db.outputs.find? (fun x => x.id == outputId && x.contentId == contentId) = some o)
    (hsupplied : editedCopy ≠ none ∨ editedHashtags ≠ none)
    (db' : DB) (u : PlatformOutput)
    (heq : outputPATCH db contentId outputId editedCopy editedHashtags = (db', .updated u)) :
    u = { o with
          userEdited := true
          editedCopy := jsCoalesce editedCopy o.editedCopy
          editedHashtags := jsCoalesce editedHashtags o.editedHashtags }
    ∧ u ∈ db'.outputs
    ∧ db'.contents = db.contents
    ∧ (∀ x ∈ db.outputs, x.id ≠ outputId → x ∈ db'.outputs) := by
  have hmem : o ∈ db.outputs := List.mem_of_find?_eq_some ho
  have hpred := List.find?_some ho
  have hido : (o.id == outputId) = true := (Bool.and_eq_true _ _ |>.mp hpred).1
  unfold outputPATCH at heq
  rw [ho] at heq
  dsimp only at heq
  split at heq
  · exact absurd (congrArg Prod.snd heq) (by simp)
  · injection heq with h1 h2
    injection h2 with h2
    subst h1 h2
    refine ⟨rfl, ?_, rfl, ?_⟩
    · exact List.mem_map.mpr ⟨o, hmem, by rw [if_pos hido]⟩
    · intro x hx hne
      have hxf : (x.id == outputId) = false := by simpa using hne
      exact List.mem_map.mpr ⟨x, hx, by rw [if_neg (by simp [hxf])]⟩

/-- Witness for C8: editing output 100's copy on the complete unit produces
the row with only the override fields changed and leaves all units intact. -/
theorem edit_sets_override_only_witness :
    sampleEditedRow =
      { sampleOutA with
        userEdited := true
        editedCopy := jsCoalesce (some "newcopy") sampleOutA.editedCopy
        editedHashtags := jsCoalesce none sampleOutA.editedHashtags }
    ∧ sampleEditedRow ∈ sampleEditedDB.outputs
    ∧ sampleEditedDB.contents = sampleCompleteDB.contents := by
  have h := edit_sets_override_only sampleCompleteDB 2 100 (some "newcopy") none
    sampleOutA (by decide) (Or.inl (by decide)) sampleEditedDB sampleEditedRow (by decide)
  exact ⟨h.1, h.2.1, h.2.2.1⟩

/-! ## Claim C9 — heuristic scheduling targets today's or tomorrow's slot -/

/-- Claim C9: in best-times mode the computed timestamp for a platform is
today's occurrence of the configured time of day when that occurrence is
still strictly in the future, and tomorrow's occurrence otherwise; in both
cases the computed timestamp is strictly in the future. -/
theorem heuristic_time_today_or_tomorrow (now : Nat) (bt : String) :
    (now < todayOccurrence now bt → heuristicTime now bt = todayOccurrence now bt)
    ∧ (¬ now < todayOccurrence now bt → heuristicTime now bt = tomorrowOccurrence now bt)
    ∧ now < heuristicTime now bt := by
  simp only [heuristicTime, todayOccurrence, tomorrowOccurrence, msPerDay]
  refine ⟨?_, ?_, ?_⟩
  · intro h
    rw [if_neg (by omega)]
  · intro h
    rw [if_pos (by omega)]
  · by_cases h : now - now % 86400000 + bestTimeMs bt ≤ now
    · rw [if_pos h]
      omega
    · rw [if_neg h]
      omega

set_option maxRecDepth 8000 in
/-- Witness for C9: at 13:53:20 on day 3 the configured 14:00:00 slot is
still ahead, so the computed time is today's occurrence, strictly future. -/
theorem heuristic_time_today_or_tomorrow_witness :
    heuristicTime 309200000 "14:00:00" = todayOccurrence 309200000 "14:00:00"
    ∧ 309200000 < heuristicTime 309200000 "14:00:00" :=
  ⟨(heuristic_time_today_or_tomorrow 309200000 "14:00:00").1 (by decide),
   (heuristic_time_today_or_tomorrow 309200000 "14:00:00").2.2⟩

/-! ## Claim C4 — explicit scheduling with a past timestamp -/

theorem schedOnlyWrite_trans (now : Nat) {x y z : PlatformOutput}
    (h1 : schedOnlyWrite now x y) (h2 : schedOnlyWrite now y z) :
    schedOnlyWrite now x z := by
  rcases h1 with rfl | ⟨t, ht, rfl⟩
  · exact h2
  · rcases h2 with rfl | ⟨u, hu, rfl⟩
    · exact Or.inr ⟨t, ht, rfl⟩
    · exact Or.inr ⟨u, hu, rfl⟩

theorem forall₂_schedOnlyWrite_trans (now : Nat) :
    ∀ {l₁ l₂ l₃ : List PlatformOutput},
      List.Forall₂ (schedOnlyWrite now) l₁ l₂ →
      List.Forall₂ (schedOnlyWrite now) l₂ l₃ →
      List.Forall₂ (schedOnlyWrite now) l₁ l₃ := by
  intro l₁ l₂ l₃ h1
  induction h1 generalizing l₃ with
  | nil =>
    intro h2
    cases h2
    exact List.Forall₂.nil
  | cons hxy _ ih =>
    intro h2
    cases h2 with
    | cons hyz htail => exact List.Forall₂.cons (schedOnlyWrite_trans now hxy hyz) (ih htail)

/-- Every write the schedule loop performs onto the outputs table is a
strictly-future `scheduledFor` timestamp on some row; all other columns of
every row are untouched, row count and order included. -/
theorem scheduleLoop_writes (now : Nat) (configs : Option (List PlatformConfig))
    (req : ScheduleReq) :
    ∀ (outs : List PlatformOutput) (db : DB) (acc : List (Platform × Nat)),
      List.Forall₂ (schedOnlyWrite now) db.outputs
        (scheduleLoop now configs req outs db acc).1.outputs := by
  intro outs
  induction outs with
  | nil =>
    intro db acc
    exact List.forall₂_same.mpr (fun x _ => Or.inl rfl)
  | cons o rest ih =>
    intro db acc
    rw [scheduleLoop]
    by_cases hcopy : (!(jsTruthy o.rewrittenCopy)) = true
    · rw [if_pos hcopy]
      exact ih db acc
    · rw [if_neg hcopy]
      cases htr : computeScheduledTime now configs req o.platform with
      | none => exact List.forall₂_same.mpr (fun x _ => Or.inl rfl)
      | some t =>
        dsimp only
        by_cases hle : t ≤ now
        · rw [if_pos hle]
          exact List.forall₂_same.mpr (fun x _ => Or.inl rfl)
        · rw [if_neg hle]
          refine forall₂_schedOnlyWrite_trans now ?_ (ih _ _)
          show List.Forall₂ _ db.outputs (db.outputs.map fun x =>
            if x.id == o.id then { x with scheduledFor := some t } else x)
          rw [List.forall₂_map_right_iff]
          refine List.forall₂_same.mpr (fun x _ => ?_)
          by_cases hid : (x.id == o.id) = true
          · rw [if_pos hid]
            exact Or.inr ⟨t, Nat.lt_of_not_le hle, rfl⟩
          · rw [if_neg hid]
            exact Or.inl rfl

/-- An `INVALID_SCHEDULE p` abort of the custom-mode loop means the supplied
timestamp for `p` is not strictly in the future. -/
theorem scheduleLoop_invalid_custom (now : Nat) (configs : Option (List PlatformConfig))
    (req : ScheduleReq) (hmode : req.schedulingMode = .custom) :
    ∀ (outs : List PlatformOutput) (db : DB) (acc : List (Platform × Nat)) (p : Platform),
      (scheduleLoop now configs req outs db acc).2 = .invalidSchedule p →
      ∃ t, customLookup req p = some t ∧ t ≤ now := by
  intro outs
  induction outs with
  | nil =>
    intro db acc p h
    rw [scheduleLoop] at h
    exact absurd h (by simp)
  | cons o rest ih =>
    intro db acc p h
    rw [scheduleLoop] at h
    by_cases hcopy : (!(jsTruthy o.rewrittenCopy)) = true
    · rw [if_pos hcopy] at h
      exact ih _ _ _ h
    · rw [if_neg hcopy] at h
      cases hcl : computeScheduledTime now configs req o.platform with
      | none =>
        rw [hcl] at h
        exact absurd h (by simp)
      | some t =>
        rw [hcl] at h
        dsimp only at h
        have hcl' : customLookup req o.platform = some t := by
          unfold computeScheduledTime at hcl
          rw [hmode] at hcl
          exact hcl
        by_cases hle : t ≤ now
        · rw [if_pos hle] at h
          dsimp only at h
          injection h with hp
          exact ⟨t, hp ▸ hcl', hle⟩
        · rw [if_neg hle] at h
          exact ih _ _ _ h

set_option maxRecDepth 8000 in
/-- Counterexample to C4 as stated: with a future custom time for instagram
(iterated first) and a past one for linkedin, the call fails with
`INVALID_SCHEDULE` for linkedin, yet instagram's timestamp has already been
persisted — the call is not all-or-nothing. -/
theorem schedule_not_all_or_nothing_counterexample :
    (schedulePOST sampleCompleteDB 1000 2 sampleMixedScheduleReq).2 =
      .invalidSchedule .linkedin
    ∧ ((schedulePOST sampleCompleteDB 1000 2 sampleMixedScheduleReq).1.outputs.find?
        (fun o => o.id == 100)).map (·.scheduledFor) = some (some 5000)
    ∧ (sampleCompleteDB.outputs.find? (fun o => o.id == 100)).map (·.scheduledFor) =
      some none := by
  decide

/-- Claim C4 (amended): in explicit (custom) mode, a non-future timestamp for
an eligible platform makes the call fail with `INVALID_SCHEDULE` naming a
platform whose supplied timestamp is not strictly in the future; the call is
not all-or-nothing — timestamps already validated for platforms processed
earlier in the iteration remain persisted — but every persisted write of the
call is a strictly-future timestamp onto some row's `scheduledFor`, all other
columns and rows being byte-identical. -/
theorem schedule_invalid_names_nonfuture (db : DB) (now : Nat) (cid : Nat)
    (req : ScheduleReq) (p : Platform)
    (hmode : req.schedulingMode = .custom)
    (hres : (schedulePOST db now cid req).2 = .invalidSchedule p) :
    (∃ t, customLookup req p = some t ∧ t ≤ now)
    ∧ List.Forall₂ (schedOnlyWrite now) db.outputs
        (schedulePOST db now cid req).1.outputs := by
  unfold schedulePOST at hres
  split at hres
  · simp at hres
  · next content hc =>
    split at hres
    · simp at hres
    · next hst =>
      have hval : schedulePOST db now cid req =
          scheduleLoop now content.platformConfigs req
            (db.outputs.filter (fun o => o.contentId == cid)) db [] := by
        unfold schedulePOST
        rw [hc]
        exact if_neg hst
      rw [hval]
      exact ⟨scheduleLoop_invalid_custom now content.platformConfigs req hmode _ _ _ _ hres,
        scheduleLoop_writes now content.platformConfigs req _ db []⟩

/-- Witness for the amended C4 at the concrete mixed request. -/
theorem schedule_invalid_names_nonfuture_witness :
    (∃ t, customLookup sampleMixedScheduleReq .linkedin = some t ∧ t ≤ 1000)
    ∧ List.Forall₂ (schedOnlyWrite 1000) sampleCompleteDB.outputs
        (schedulePOST sampleCompleteDB 1000 2 sampleMixedScheduleReq).1.outputs :=
  schedule_invalid_names_nonfuture sampleCompleteDB 1000 2 sampleMixedScheduleReq
    .linkedin rfl (by decide)

/-! ## Claim C7 — substitution of placeholders with absent values -/

set_option maxRecDepth 4000 in
/-- Claim C7 evaluated on the code: with `tone_override` absent (`null`), the
n8n prompt builder substitutes the literal text `"null"` — not the empty
string — and only for the first occurrence of the placeholder, leaving the
second occurrence verbatim; and the test route's `buildUserPrompt`
substitutes only `{{title}}`/`{{body}}`, leaving the documented
`{{target_audience}}` placeholder unresolved in the built prompt.  This
contradicts the repository's own documentation ("Undefined variables replaced
with empty string"). -/
theorem prompt_builder_absent_value_eval :
    buildAIPrompt "TT" "BB" {}
      { user_prompt_template := "Tone: {{platform_tone}} / {{platform_tone}}"
        char_limit := 280 } = "Tone: null / {{platform_tone}}"
    ∧ buildUserPrompt (some "Audience: {{target_audience}}; {{title}}") "TT" "BB"
      = "Audience: {{target_audience}}; TT"
    ∧ occursStr "{{target_audience}}"
        (buildUserPrompt (some "Audience: {{target_audience}}; {{title}}") "TT" "BB")
      = true := by
  decide

/-! ## Claim C2 — order-independence of the terminal aggregate status -/

theorem recordOutcome_create (db : DB) (r : CallbackReq)
    (hrec : recordsRow r = true)
    (hnone : db.outputs.find? (matchesPair r.content_id r.platform) = none) :
    (recordOutcome db r).outputs = db.outputs ++ [createdRow db r] := by
  obtain ⟨cid, p, st, out, em⟩ := r
  cases st with
  | success =>
    cases out with
    | none => exact absurd hrec (by simp [recordsRow])
    | some o =>
      unfold recordOutcome createdRow
      rw [hnone]
  | failed =>
    cases out <;> (unfold recordOutcome createdRow; rw [hnone])

/-- Recording an outcome for a platform with no stored row yet appends the
fresh row to the unit's outputs. -/
theorem outputsFor_n8nCallback_fresh (db : DB) (r : CallbackReq) (cid : Nat)
    (hcid : r.content_id = cid)
    (hrec : recordsRow r = true)
    (hfresh : ∀ o ∈ outputsFor db cid, o.platform ≠ r.platform) :
    outputsFor (n8nCallback db r) cid = outputsFor db cid ++ [createdRow db r] := by
  have hnone : db.outputs.find? (matchesPair r.content_id r.platform) = none := by
    rw [List.find?_eq_none]
    intro o ho hmp
    have h1 : o.contentId = r.content_id ∧ o.platform = r.platform := by
      simpa [matchesPair] using hmp
    exact hfresh o (List.mem_filter.mpr ⟨ho, by simp [h1.1, hcid]⟩) h1.2
  unfold outputsFor
  rw [n8nCallback_outputs, recordOutcome_create db r hrec hnone, List.filter_append]
  congr 1
  simp [createdRow_contentId, hcid]

/-- Running a sequence of pairwise-platform-distinct recording callbacks over
a unit appends one row per callback, in order, carrying that callback's
(platform, copy) contribution. -/
theorem runCallbacks_rows (cid : Nat) (l : List CallbackReq) :
    ∀ (db : DB),
      (∀ r ∈ l, r.content_id = cid ∧ recordsRow r = true) →
      (l.map (fun r => r.platform)).Nodup →
      (∀ r ∈ l, ∀ o ∈ outputsFor db cid, o.platform ≠ r.platform) →
      (outputsFor (runCallbacks db l) cid).map rowKey =
        (outputsFor db cid).map rowKey ++ l.map reqKey := by
  induction l with
  | nil =>
    intro db _ _ _
    simp [runCallbacks]
  | cons r t ih =>
    intro db hall hnodup hfresh
    have hr := hall r (List.mem_cons_self r t)
    have houts : outputsFor (n8nCallback db r) cid =
        outputsFor db cid ++ [createdRow db r] :=
      outputsFor_n8nCallback_fresh db r cid hr.1 hr.2
        (fun o ho => hfresh r (List.mem_cons_self r t) o ho)
    rw [List.map_cons] at hnodup
    obtain ⟨hnotin, hnd⟩ := List.nodup_cons.mp hnodup
    have hfresh2 : ∀ x ∈ t, ∀ o ∈ outputsFor (n8nCallback db r) cid,
        o.platform ≠ x.platform := by
      intro x hx o ho
      rw [houts] at ho
      rcases List.mem_append.mp ho with ho | ho
      · exact hfresh x (List.mem_cons_of_mem r hx) o ho
      · have heq : o = createdRow db r := by simpa using ho
        subst heq
        rw [createdRow_platform]
        intro hpe
        have hmem : x.platform ∈ t.map (fun r => r.platform) :=
          List.mem_map_of_mem (fun r => r.platform) hx
        rw [← hpe] at hmem
        exact hnotin hmem
    have hstep : runCallbacks db (r :: t) = runCallbacks (n8nCallback db r) t := rfl
    rw [hstep, ih (n8nCallback db r)
        (fun x hx => hall x (List.mem_cons_of_mem r hx)) hnd hfresh2, houts,
      List.map_append, List.map_cons, List.append_assoc]
    congr 1
    simp [rowKey, reqKey, createdRow_platform, createdRow_rewrittenCopy]

/-- The aggregation step never changes a unit's identity or target set. -/
theorem aggregateUpdate_contentKey (db : DB) (k : Nat) (m : Option String) (cid : Nat) :
    contentKey (aggregateUpdate db k m) cid = contentKey db cid := by
  unfold contentKey aggregateUpdate
  cases db.contents.find? (fun c => c.id == k) with
  | none => rfl
  | some content =>
    dsimp only
    split
    · rw [find?_map_comm _ _ ?hf]
      case hf =>
        intro a
        by_cases h : (a.id == k) = true
        · rw [if_pos h]
        · rw [if_neg h]
      cases hfind : db.contents.find? (fun u => u.id == cid) with
      | none => rfl
      | some c =>
        simp only [Option.map_some']
        by_cases h : (c.id == k) = true
        · rw [if_pos h]
        · rw [if_neg h]
    · rfl

/-- The callback never changes a unit's identity or target set. -/
theorem n8nCallback_contentKey (db : DB) (r : CallbackReq) (cid : Nat) :
    contentKey (n8nCallback db r) cid = contentKey db cid := by
  unfold n8nCallback
  rw [aggregateUpdate_contentKey]
  unfold contentKey
  rw [recordOutcome_contents]

theorem runCallbacks_contentKey (cid : Nat) (l : List CallbackReq) :
    ∀ db : DB, contentKey (runCallbacks db l) cid = contentKey db cid := by
  induction l with
  | nil => intro db; rfl
  | cons r t ih =>
    intro db
    exact (ih (n8nCallback db r)).trans (n8nCallback_contentKey db r cid)

/-- Terminal-status characterization: recording one outcome per target
platform (in any order, from a clean slate) always lands the unit in the
status derived from the number of successful outcomes alone. -/
theorem run_terminal_status (db : DB) (cid : Nat) (c : ContentUnit)
    (hc : db.contents.find? (fun u => u.id == cid) = some c)
    (hclean : outputsFor db cid = [])
    (hnodup : c.targetPlatforms.Nodup)
    (l : List CallbackReq) (hne : l ≠ [])
    (hall : ∀ r ∈ l, r.content_id = cid ∧ recordsRow r = true)
    (hcover : (l.map (fun r => r.platform)).Perm c.targetPlatforms) :
    statusOf (runCallbacks db l) cid =
      some (deriveStatus (l.filter (fun r => !(eventCopy r == none))).length
        c.targetPlatforms.length) := by
  rcases List.eq_nil_or_concat l with hnil | ⟨t, e, heq⟩
  · exact absurd hnil hne
  · subst heq
    simp only [List.concat_eq_append] at hall hcover ⊢
    set db1 := runCallbacks db t with hdb1
    have hstep : runCallbacks db (t ++ [e]) = n8nCallback db1 e := by
      simp [runCallbacks, List.foldl_append, hdb1]
    have hnodupl : ((t ++ [e]).map (fun r => r.platform)).Nodup :=
      hcover.nodup_iff.mpr hnodup
    rw [List.map_append] at hnodupl
    obtain ⟨hndT, _, hdisj⟩ := List.nodup_append.mp hnodupl
    have hnotin : e.platform ∉ t.map (fun r => r.platform) :=
      fun hmem => hdisj hmem (by simp)
    have hallT : ∀ r ∈ t, r.content_id = cid ∧ recordsRow r = true :=
      fun r hr => hall r (List.mem_append_left _ hr)
    have he := hall e (List.mem_append_right _ (by simp))
    have hfreshT : ∀ r ∈ t, ∀ o ∈ outputsFor db cid, o.platform ≠ r.platform := by
      intro r hr o ho
      rw [hclean] at ho
      exact absurd ho (List.not_mem_nil o)
    have hrows : (outputsFor db1 cid).map rowKey = t.map reqKey := by
      have h0 := runCallbacks_rows cid t db hallT hndT hfreshT
      rw [hclean] at h0
      simpa using h0
    have hkey : contentKey db1 cid = some (c.id, c.targetPlatforms) := by
      rw [hdb1, runCallbacks_contentKey]
      unfold contentKey
      rw [hc, Option.map_some']
    obtain ⟨c', hfind1, hproj⟩ := Option.map_eq_some'.mp hkey
    have htargets : c'.targetPlatforms = c.targetPlatforms :=
      (Prod.mk.injEq _ _ _ _ ▸ hproj).2
    have hfreshE : ∀ o ∈ outputsFor db1 cid, o.platform ≠ e.platform := by
      intro o ho hpe
      have h1 : rowKey o ∈ t.map reqKey := hrows ▸ List.mem_map_of_mem rowKey ho
      obtain ⟨r', hr', hkeq⟩ := List.mem_map.mp h1
      have h2 : r'.platform = o.platform := congrArg Prod.fst hkeq
      have hmem : r'.platform ∈ t.map (fun r => r.platform) :=
        List.mem_map_of_mem (fun r => r.platform) hr'
      rw [h2, hpe] at hmem
      exact hnotin hmem
    have houtsE : outputsFor (n8nCallback db1 e) cid =
        outputsFor db1 cid ++ [createdRow db1 e] :=
      outputsFor_n8nCallback_fresh db1 e cid he.1 he.2 hfreshE
    have hrecouts : outputsFor (recordOutcome db1 e) cid =
        outputsFor db1 cid ++ [createdRow db1 e] := by
      have h2 : outputsFor (n8nCallback db1 e) cid =
          outputsFor (recordOutcome db1 e) cid := by
        unfold outputsFor
        rw [n8nCallback_outputs]
      rw [← h2, houtsE]
    have hlenT : (outputsFor db1 cid).length = t.length := by
      have h3 := congrArg List.length hrows
      simpa using h3
    have hlen : ((t ++ [e]).map (fun r => r.platform)).length =
        c.targetPlatforms.length := hcover.length_eq
    have hT : c.targetPlatforms.length = t.length + 1 := by
      rw [← hlen]
      simp
    have hR : (outputsFor (recordOutcome db1 e) e.content_id).length =
        c'.targetPlatforms.length := by
      rw [he.1, hrecouts, htargets, hT]
      simp [hlenT]
    have hc1 : db1.contents.find? (fun u => u.id == e.content_id) = some c' := by
      rw [he.1]
      exact hfind1
    have hspec := (callback_aggregation_spec db1 e c' hc1).2 hR
    have hmaprows : (outputsFor (recordOutcome db1 e) cid).map rowKey =
        (t ++ [e]).map reqKey := by
      rw [hrecouts, List.map_append, hrows, List.map_append]
      congr 1
      simp [rowKey, reqKey, createdRow_platform, createdRow_rewrittenCopy]
    have hS : (successesFor (recordOutcome db1 e) cid).length =
        ((t ++ [e]).filter (fun r => !(eventCopy r == none))).length := by
      unfold successesFor
      rw [← List.countP_eq_length_filter, ← List.countP_eq_length_filter]
      calc List.countP (fun o => !(o.rewrittenCopy == none))
            (outputsFor (recordOutcome db1 e) cid)
          = List.countP
              ((fun k : Platform × Option String => !(k.2 == none)) ∘ rowKey)
              (outputsFor (recordOutcome db1 e) cid) := rfl
        _ = List.countP (fun k : Platform × Option String => !(k.2 == none))
              ((outputsFor (recordOutcome db1 e) cid).map rowKey) :=
            (List.countP_map _ _ _).symm
        _ = List.countP (fun k : Platform × Option String => !(k.2 == none))
              ((t ++ [e]).map reqKey) := by rw [hmaprows]
        _ = List.countP
              ((fun k : Platform × Option String => !(k.2 == none)) ∘ reqKey)
              (t ++ [e]) := List.countP_map _ _ _
        _ = List.countP (fun r => !(eventCopy r == none)) (t ++ [e]) := rfl
    rw [hstep]
    rw [he.1] at hspec
    rw [hspec.1, hS, htargets]

/-- Claim C2: for a unit with no recorded results, delivering one recording
outcome per target platform through the callback yields the same terminal
aggregate status under every arrival order (every permutation of the same
completions). -/
theorem callback_order_independent (db : DB) (cid : Nat) (c : ContentUnit)
    (hc : db.contents.find? (fun u => u.id == cid) = some c)
    (hclean : outputsFor db cid = [])
    (hnodup : c.targetPlatforms.Nodup)
    (l₁ l₂ : List CallbackReq)
    (hperm : l₁.Perm l₂)
    (hall : ∀ r ∈ l₁, r.content_id = cid ∧ recordsRow r = true)
    (hcover : (l₁.map (fun r => r.platform)).Perm c.targetPlatforms) :
    statusOf (runCallbacks db l₁) cid = statusOf (runCallbacks db l₂) cid := by
  rcases eq_or_ne l₁ [] with rfl | hne1
  · have h2 : l₂ = [] := hperm.symm.eq_nil
    subst h2
    rfl
  · have hne2 : l₂ ≠ [] := by
      intro h
      subst h
      exact hne1 hperm.eq_nil
    have hall2 : ∀ r ∈ l₂, r.content_id = cid ∧ recordsRow r = true :=
      fun r hr => hall r (hperm.mem_iff.mpr hr)
    have hcover2 : (l₂.map (fun r => r.platform)).Perm c.targetPlatforms :=
      ((hperm.map (fun r => r.platform)).symm).trans hcover
    rw [run_terminal_status db cid c hc hclean hnodup l₁ hne1 hall hcover,
      run_terminal_status db cid c hc hclean hnodup l₂ hne2 hall2 hcover2,
      (hperm.filter (fun r => !(eventCopy r == none))).length_eq]

/-- Witness for C2: the three permuted delivery orders of two successes and
one failure on a three-platform unit all end in the same terminal status. -/
theorem callback_order_independent_witness :
    statusOf (runCallbacks sampleTriDB [triSuccessA, triSuccessB, triFailC]) 3 =
      statusOf (runCallbacks sampleTriDB [triFailC, triSuccessA, triSuccessB]) 3
    ∧ statusOf (runCallbacks sampleTriDB [triSuccessA, triSuccessB, triFailC]) 3 =
      some Status.partialResult :=
  ⟨callback_order_independent sampleTriDB 3 sampleTriUnit (by decide) (by decide)
      (by decide) [triSuccessA, triSuccessB, triFailC]
      [triFailC, triSuccessA, triSuccessB] (by decide) (by decide) (by decide),
   by decide⟩

end CRE
